import Mathlib

/-!
Verification of the rec-cli speech-to-text pipeline.

Shallow embedding of the Rust sources:
- `src/config.rs`   : `Config`, `Config.add_custom_word`, `Config.load` (filesystem
  effects modelled by an explicit `ConfigFs` state; file contents are modelled as
  `Option Json`, `none` standing for bytes that are not valid JSON at all).
- `src/correction.rs`: context-window assembly (`correctionContext`), the response
  handling of `correct_transcription` (transport / HTTP / JSON / tool_use / tool-input
  stages made explicit by `ApiOutcome` and `CorrectionError`), and the serde parse of
  the tool input (`parseCorrectionResult`, mirroring `#[serde(default)] Option<String>`
  fields).
- `src/backend.rs`  : multipart form assembly of `transcribe_mistral`
  (`mistralForm`) and success/failure response handling (`handleTranscribeResponse`,
  `parseTranscriptionResponse` mirroring serde's derived `TranscriptionResponse`).
- `src/main.rs`     : the WAV encoding loop (`encodeWav`; f32 samples are modelled as
  rationals, the scale/clamp/truncate arithmetic is exact on the modelled values),
  the empty-capture guard (`liveCaptureEncode`), the orchestrator's own multipart
  form (`mainTranscribeForm`) and the correction fallback (`finalText`).
-/

namespace RecCli

/-! ### Data model (config.rs) -/

/-- `HistoryEntry` from config.rs. -/
structure HistoryEntry where
  timestamp : String
  original : String
  corrected : String
  model : String
  custom_words : List String
deriving DecidableEq, Repr

/-- `Config` from config.rs. -/
structure Config where
  custom_words : List String
  claude_model : String
deriving DecidableEq, Repr

/-- `impl Default for Config` (config.rs lines 22-29). -/
def Config.defaultConfig : Config :=
  { custom_words := [], claude_model := "claude-haiku-4-5" }

/-- `Config::add_custom_word` (config.rs lines 80-85): push only when not contained. -/
def Config.add_custom_word (c : Config) (word : String) : Config :=
  if c.custom_words.contains word then c
  else { c with custom_words := c.custom_words ++ [word] }

/-! ### A small JSON value model, for the serde-parsed payloads -/

/-- JSON values, as far as the deserialized payloads need them. -/
inductive Json where
  | str (s : String)
  | num (n : Int)
  | bool (b : Bool)
  | null
  | arr (elems : List Json)
  | obj (fields : List (String × Json))

/-- Look a key up in a JSON object's field list (first occurrence wins). -/
def getField (fields : List (String × Json)) (key : String) : Option Json :=
  (fields.find? (fun kv => kv.fst == key)).map (fun kv => kv.snd)

/-- serde deserialization of `Option<String>` from a present JSON value:
a string yields `some`, `null` yields `none`, anything else is a type error. -/
def parseOptionalString : Json → Option (Option String)
  | Json.str s => some (some s)
  | Json.null => some none
  | _ => none

/-- serde deserialization of a `#[serde(default)] corrected: Option<String>` field:
an absent key falls back to the default `None`; a present key must deserialize. -/
def parseDefaultField (fields : List (String × Json)) (key : String) :
    Option (Option String) :=
  match getField fields key with
  | none => some none
  | some j => parseOptionalString j

/-! ### correction.rs -/

/-- `CorrectionResult` (correction.rs lines 60-66): both fields `#[serde(default)]`. -/
structure CorrectionResult where
  corrected : Option String
  explanation : Option String
deriving DecidableEq, Repr

/-- serde's derived deserialization of `CorrectionResult` from a JSON value
(correction.rs line 193, `serde_json::from_value`): the value must be an object,
each of the two known keys is optional (`#[serde(default)]`) but when present must
be a string or null; unknown keys are ignored (serde's default behaviour). -/
def parseCorrectionResult : Json → Option CorrectionResult
  | Json.obj fields =>
      match parseDefaultField fields "corrected",
            parseDefaultField fields "explanation" with
      | some c, some e => some { corrected := c, explanation := e }
      | _, _ => none
  | _ => none

/-- `ContentBlock` (correction.rs lines 41-53). -/
inductive ContentBlock where
  | toolUse (id : String) (name : String) (input : Json)
  | text (t : String)

/-- `result.content.iter().find_map(...)` (correction.rs lines 183-190):
first `tool_use` block's input, if any. -/
def findToolUse (content : List ContentBlock) : Option Json :=
  content.findSome? (fun block =>
    match block with
    | ContentBlock.toolUse _ _ input => some input
    | _ => none)

/-- The failure stages of `correct_transcription` (correction.rs lines 162-194). -/
inductive CorrectionError where
  | transport
  | httpStatus (body : String)
  | responseParse (body : String)
  | noToolUse
  | toolInputParse
deriving DecidableEq, Repr

/-- `CorrectionOutput` (correction.rs lines 68-71). -/
structure CorrectionOutput where
  corrected : Option String
  explanation : Option String
deriving DecidableEq, Repr

/-- What the Claude HTTP call handed back to `correct_transcription`:
either a transport error, or a status flag together with the body text and
the result of JSON-decoding that body into the `ApiResponse` content blocks
(`none` = the body did not deserialize). -/
inductive ApiOutcome where
  | transportError
  | http (statusSuccess : Bool) (bodyText : String)
      (bodyParsed : Option (List ContentBlock))

/-- Response handling of `correct_transcription` (correction.rs lines 162-204):
propagate transport errors, fail on non-success status with the body embedded,
fail on an undecodable body, find the `tool_use` block (its absence is an error),
parse its input as `CorrectionResult`, then normalize empty strings to `None`
(`.filter(|s| !s.is_empty())`, lines 197-198). -/
def correct_transcription (resp : ApiOutcome) :
    Except CorrectionError CorrectionOutput :=
  match resp with
  | ApiOutcome.transportError => Except.error CorrectionError.transport
  | ApiOutcome.http false body _ => Except.error (CorrectionError.httpStatus body)
  | ApiOutcome.http true body none => Except.error (CorrectionError.responseParse body)
  | ApiOutcome.http true _ (some content) =>
      match findToolUse content with
      | none => Except.error CorrectionError.noToolUse
      | some input =>
          match parseCorrectionResult input with
          | none => Except.error CorrectionError.toolInputParse
          | some r =>
              Except.ok
                { corrected := r.corrected.filter (fun s => !s.isEmpty)
                  explanation := r.explanation.filter (fun s => !s.isEmpty) }

/-- `history.iter().rev().take(5).rev()` (correction.rs line 90): the last
(at most) five history entries, kept in chronological order. -/
def contextEntries (history : List HistoryEntry) : List HistoryEntry :=
  (history.reverse.take 5).reverse

/-- One context line of the prompt (correction.rs lines 93-96): only the
original/corrected pair of the entry is shown. -/
def contextLine (e : HistoryEntry) : String :=
  "- Original: \"" ++ e.original ++ "\"\n  Corrected: \"" ++ e.corrected ++ "\"\n"

/-- The `context` block of the prompt (correction.rs lines 87-100): empty when the
history is empty, otherwise a header, one line per windowed entry, and a blank line. -/
def correctionContext (history : List HistoryEntry) : String :=
  if history.isEmpty then ""
  else
    "\nContext (previous corrections):\n"
      ++ String.join ((contextEntries history).map contextLine)
      ++ "\n"

/-- The orchestrator's handling of the correction result (main.rs lines 203-257):
on success the corrected text replaces the original when present
(`output.corrected.unwrap_or_else(|| result.text.clone())`), on any correction
error the original transcription is kept. -/
def finalText (originalText : String)
    (result : Except CorrectionError CorrectionOutput) : String :=
  match result with
  | Except.ok output => output.corrected.getD originalText
  | Except.error _ => originalText

/-! ### WAV encoding (main.rs lines 146-161, via hound) -/

/-- Truncation toward zero, the semantics of Rust's float-to-int `as` cast
once the value has been clamped into range. -/
def ratTruncToInt (q : ℚ) : Int :=
  if q < 0 then ⌈q⌉ else ⌊q⌋

/-- `(s * 32767.0).clamp(-32768.0, 32767.0) as i16` (main.rs line 158). -/
def sampleToI16 (s : ℚ) : Int :=
  ratTruncToInt (max (-32768) (min 32767 (s * 32767)))

/-- Two little-endian bytes of a 16-bit value. -/
def u16le (n : Nat) : List Nat :=
  [n % 256, n / 256 % 256]

/-- Four little-endian bytes of a 32-bit value. -/
def u32le (n : Nat) : List Nat :=
  [n % 256, n / 256 % 256, n / 65536 % 256, n / 16777216 % 256]

/-- Little-endian two's-complement encoding of an i16. -/
def i16le (i : Int) : List Nat :=
  u16le (i % 65536).toNat

/-- ASCII bytes of "RIFF". -/
def riffTag : List Nat := [82, 73, 70, 70]

/-- ASCII bytes of "WAVE". -/
def waveTag : List Nat := [87, 65, 86, 69]

/-- ASCII bytes of "fmt ". -/
def fmtTag : List Nat := [102, 109, 116, 32]

/-- ASCII bytes of "data". -/
def dataTag : List Nat := [100, 97, 116, 97]

/-- The 24-byte fmt chunk hound writes for 16-bit integer PCM: tag, chunk size 16,
format tag 1 (PCM), channel count, sample rate, byte rate, block align, 16 bits. -/
def fmtChunk (channels sampleRate : Nat) : List Nat :=
  fmtTag ++ u32le 16 ++ u16le 1 ++ u16le channels ++ u32le sampleRate
    ++ u32le (sampleRate * channels * 2) ++ u16le (channels * 2) ++ u16le 16

/-- The 44-byte WAV header for a data chunk of `dataLen` bytes. -/
def wavHeader (channels sampleRate dataLen : Nat) : List Nat :=
  riffTag ++ u32le (36 + dataLen) ++ waveTag ++ fmtChunk channels sampleRate
    ++ dataTag ++ u32le dataLen

/-- The data chunk payload: each sample scaled/clamped/truncated to i16 and
written as two little-endian bytes, in input order (main.rs lines 157-159). -/
def wavData (samples : List ℚ) : List Nat :=
  samples.flatMap (fun s => i16le (sampleToI16 s))

/-- The complete WAV container produced by the encoding block
(main.rs lines 146-161): header plus data chunk, 2 bytes per sample. -/
def encodeWav (channels sampleRate : Nat) (samples : List ℚ) : List Nat :=
  wavHeader channels sampleRate (2 * samples.length) ++ wavData samples

/-- The live-capture tail of `main` (main.rs lines 136-162): an empty recording
fails with "No audio" before the WAV encoder runs; otherwise the buffer is encoded. -/
def liveCaptureEncode (channels sampleRate : Nat) (recorded : List ℚ) :
    Except String (List Nat) :=
  if recorded.isEmpty then Except.error "No audio"
  else Except.ok (encodeWav channels sampleRate recorded)

/-! ### Multipart forms (main.rs lines 170-177, backend.rs lines 42-57) -/

/-- One part of a multipart form. -/
inductive FormPart where
  | file (name fileName mime : String) (bytes : List Nat)
  | text (name value : String)
deriving DecidableEq, Repr

/-- `TranscribeOptions` (backend.rs lines 11-16). -/
structure TranscribeOptions where
  wav_data : List Nat
  model : String
  language : Option String
  context_bias : List String

/-- The multipart form `transcribe_mistral` builds (backend.rs lines 42-57):
file part, model field, optional language field, one `context_bias` text field
per term of `opts.context_bias`, in list order. -/
def mistralForm (opts : TranscribeOptions) : List FormPart :=
  [FormPart.file "file" "audio.wav" "audio/wav" opts.wav_data,
   FormPart.text "model" opts.model]
    ++ (match opts.language with
        | some lang => [FormPart.text "language" lang]
        | none => [])
    ++ opts.context_bias.map (fun term => FormPart.text "context_bias" term)

/-- The multipart form the orchestrator itself builds (main.rs lines 170-177):
only the file part and the model field. -/
def mainTranscribeForm (wavBuffer : List Nat) (model : String) : List FormPart :=
  [FormPart.file "file" "audio.wav" "audio/wav" wavBuffer,
   FormPart.text "model" model]

/-- The values of the `context_bias` text fields of a form, in order. -/
def contextBiasValues (form : List FormPart) : List String :=
  form.filterMap (fun part =>
    match part with
    | FormPart.text "context_bias" v => some v
    | _ => none)

/-! ### Transcription response handling (backend.rs lines 59-73) -/

/-- serde's derived deserialization of `TranscriptionResponse { text: String }`
(backend.rs lines 6-9): the body must be a JSON object whose `text` key is a
string; unknown keys are ignored (serde's default behaviour). -/
def parseTranscriptionResponse (j : Json) : Option String :=
  match j with
  | Json.obj fields =>
      match getField fields "text" with
      | some (Json.str t) => some t
      | _ => none
  | _ => none

/-- Failure modes of `transcribe_mistral` past the transport layer. -/
inductive TranscribeError where
  | apiError (message : String)
  | decodeError
deriving DecidableEq, Repr

/-- Response handling of `transcribe_mistral` (backend.rs lines 59-73): on a
non-success status fail with `format!("Mistral API error: {}", body)`; on success
decode the body JSON into `TranscriptionResponse` and return its text. -/
def handleTranscribeResponse (statusSuccess : Bool) (bodyText : String)
    (bodyJson : Option Json) : Except TranscribeError String :=
  if statusSuccess then
    match bodyJson.bind parseTranscriptionResponse with
    | some t => Except.ok t
    | none => Except.error TranscribeError.decodeError
  else Except.error (TranscribeError.apiError ("Mistral API error: " ++ bodyText))

/-! ### Config persistence (config.rs lines 43-78) -/

/-- serde deserialization of a `Vec<String>`. -/
def parseStringList : Json → Option (List String)
  | Json.arr elems =>
      elems.mapM (fun j =>
        match j with
        | Json.str s => some s
        | _ => none)
  | _ => none

/-- serde's derived deserialization of `Config` (config.rs lines 16-20): an object
with a `custom_words` string array and a `claude_model` string, both required. -/
def parseConfigJson : Json → Option Config
  | Json.obj fields =>
      match getField fields "custom_words", getField fields "claude_model" with
      | some cw, some (Json.str m) =>
          (parseStringList cw).map
            (fun ws => { custom_words := ws, claude_model := m })
      | _, _ => none
  | _ => none

/-- serde serialization of `Config` (config.rs line 75). -/
def configToJson (c : Config) : Json :=
  Json.obj [("custom_words", Json.arr (c.custom_words.map Json.str)),
            ("claude_model", Json.str c.claude_model)]

/-- The slice of the filesystem `Config::load`/`Config::save` touch: the config
file and its `.bak` sibling. `none` = the file does not exist; a present file's
content is `none` when its bytes are not valid JSON, `some j` when they parse as
the JSON value `j`. -/
structure ConfigFs where
  configFile : Option (Option Json)
  backupFile : Option (Option Json)

/-- `Config::load` (config.rs lines 43-70), filesystem I/O made explicit and
assumed to succeed: a missing file is created from defaults; a file whose content
deserializes is returned as-is; otherwise the content is copied verbatim to the
`.bak` sibling, defaults are saved over the original path, and the defaults are
returned as a success (`Ok`), not an error. -/
def Config.load (fs : ConfigFs) : ConfigFs × Except String Config :=
  match fs.configFile with
  | none =>
      let c := Config.defaultConfig
      ({ fs with configFile := some (some (configToJson c)) }, Except.ok c)
  | some content =>
      match content.bind parseConfigJson with
      | some c => (fs, Except.ok c)
      | none =>
          let c := Config.defaultConfig
          ({ configFile := some (some (configToJson c)),
             backupFile := some content }, Except.ok c)

/-! ### Helper lemmas -/

theorem contextEntries_eq_drop (history : List HistoryEntry) :
    contextEntries history = history.drop (history.length - 5) := by
  rw [contextEntries, ← List.rtake_eq_reverse_take_reverse, List.rtake]

/-! ### Claims -/

/-- C2: for every history list, the assembled correction prompt's context block
contains exactly `min (len history) 5` entries, in original chronological order
(the window is a suffix of the history, i.e. only the most recent entries are
used when truncating); each context line shows only the original/corrected pair
(via `contextLine`); and when the history is empty the block is omitted. -/
theorem context_window (history : List HistoryEntry) :
    (contextEntries history).length = min history.length 5
    ∧ contextEntries history = history.drop (history.length - 5)
    ∧ (history = [] → correctionContext history = "")
    ∧ (history ≠ [] →
        correctionContext history
          = "\nContext (previous corrections):\n"
              ++ String.join ((contextEntries history).map contextLine) ++ "\n") := by
  refine ⟨?_, contextEntries_eq_drop history, ?_, ?_⟩
  · rw [contextEntries_eq_drop, List.length_drop]
    omega
  · intro h
    subst h
    rfl
  · intro h
    simp only [correctionContext, List.isEmpty_eq_true]
    rw [if_neg h]

/-- Witness for C2 at histories of length 0 and 1. -/
theorem context_window_witness :
    correctionContext ([] : List HistoryEntry) = ""
    ∧ correctionContext [⟨"t", "o", "c", "m", []⟩]
        = "\nContext (previous corrections):\n"
            ++ String.join
                ((contextEntries [⟨"t", "o", "c", "m", []⟩]).map contextLine)
            ++ "\n" :=
  ⟨(context_window []).2.2.1 rfl,
   (context_window [⟨"t", "o", "c", "m", []⟩]).2.2.2 (by simp)⟩

/-- C3: in the live-capture path, an empty captured sample buffer fails with the
distinct "No audio" error, and any successful result comes from a non-empty
buffer and is exactly the WAV encoding of that buffer — the encoder is never
invoked on an empty buffer. -/
theorem empty_capture_rejected (channels sampleRate : Nat) (recorded : List ℚ) :
    liveCaptureEncode channels sampleRate [] = Except.error "No audio"
    ∧ (∀ w, liveCaptureEncode channels sampleRate recorded = Except.ok w →
        recorded ≠ [] ∧ w = encodeWav channels sampleRate recorded) := by
  constructor
  · rfl
  · intro w hw
    cases recorded with
    | nil => simp [liveCaptureEncode] at hw
    | cons s rest =>
        simp [liveCaptureEncode] at hw
        exact ⟨List.cons_ne_nil s rest, hw.symm⟩

/-- Witness for C3 at a one-sample recording. -/
theorem empty_capture_rejected_witness :
    liveCaptureEncode 1 8000 [] = Except.error "No audio"
    ∧ ([(1 : ℚ)] ≠ [] ∧ encodeWav 1 8000 [1] = encodeWav 1 8000 [1]) :=
  ⟨(empty_capture_rejected 1 8000 [1]).1,
   (empty_capture_rejected 1 8000 [1]).2 (encodeWav 1 8000 [1]) rfl⟩

/-- C8: when the config file exists but its content does not deserialize,
`Config.load` copies the content verbatim to the backup path, writes freshly
serialized defaults to the config path, and returns the defaults as a success. -/
theorem corrupted_config_recovery (fs : ConfigFs) (content : Option Json)
    (h1 : fs.configFile = some content)
    (h2 : content.bind parseConfigJson = none) :
    Config.load fs
      = ({ configFile := some (some (configToJson Config.defaultConfig)),
           backupFile := some content },
         Except.ok Config.defaultConfig) := by
  simp [Config.load, h1, h2]

/-- Witness for C8 at a config file holding bytes that are not valid JSON. -/
theorem corrupted_config_recovery_witness :
    Config.load ⟨some none, none⟩
      = ({ configFile := some (some (configToJson Config.defaultConfig)),
           backupFile := some none },
         Except.ok Config.defaultConfig) :=
  corrupted_config_recovery ⟨some none, none⟩ none rfl rfl

/-- C9: `add_custom_word` is deduplicating and idempotent: adding a word already
present leaves the configuration unchanged; adding a new word appends it at the
end, preserving the existing words (and the model field); and adding the same
word twice equals adding it once. -/
theorem add_custom_word_idempotent (c : Config) (w : String) :
    (w ∈ c.custom_words → c.add_custom_word w = c)
    ∧ (w ∉ c.custom_words →
        (c.add_custom_word w).custom_words = c.custom_words ++ [w]
          ∧ (c.add_custom_word w).claude_model = c.claude_model)
    ∧ (c.add_custom_word w).add_custom_word w = c.add_custom_word w := by
  refine ⟨?_, ?_, ?_⟩
  · intro h
    simp [Config.add_custom_word, h]
  · intro h
    simp [Config.add_custom_word, h]
  · by_cases h : w ∈ c.custom_words
    · simp [Config.add_custom_word, h]
    · simp [Config.add_custom_word, h]

/-- Witness for C9: re-adding "a" is the identity, adding fresh "b" appends. -/
theorem add_custom_word_witness :
    Config.add_custom_word ⟨["a"], "m"⟩ "a" = ⟨["a"], "m"⟩
    ∧ ((Config.add_custom_word ⟨["a"], "m"⟩ "b").custom_words = ["a"] ++ ["b"]
        ∧ (Config.add_custom_word ⟨["a"], "m"⟩ "b").claude_model = "m") :=
  ⟨(add_custom_word_idempotent ⟨["a"], "m"⟩ "a").1 (by decide),
   (add_custom_word_idempotent ⟨["a"], "m"⟩ "b").2.1 (by decide)⟩

/-- C10: parsing the correction tool input tolerates missing keys: an object in
which `corrected` or `explanation` is entirely absent still parses (the other
key, when present as a string, passes through), and the missing field comes out
absent rather than the payload being reported malformed. -/
theorem missing_keys_tolerated (fields : List (String × Json)) (s : String) :
    (getField fields "corrected" = none → getField fields "explanation" = none →
        parseCorrectionResult (Json.obj fields)
          = some { corrected := none, explanation := none })
    ∧ (getField fields "corrected" = none →
        getField fields "explanation" = some (Json.str s) →
        parseCorrectionResult (Json.obj fields)
          = some { corrected := none, explanation := some s })
    ∧ (getField fields "explanation" = none →
        getField fields "corrected" = some (Json.str s) →
        parseCorrectionResult (Json.obj fields)
          = some { corrected := some s, explanation := none }) := by
  refine ⟨?_, ?_, ?_⟩ <;> intro h1 h2 <;>
    simp [parseCorrectionResult, parseDefaultField, parseOptionalString, h1, h2]

/-- Witness for C10: the empty object and an explanation-only object both parse. -/
theorem missing_keys_tolerated_witness :
    parseCorrectionResult (Json.obj [])
        = some { corrected := none, explanation := none }
    ∧ parseCorrectionResult (Json.obj [("explanation", Json.str "e")])
        = some { corrected := none, explanation := some "e" } :=
  ⟨(missing_keys_tolerated [] "e").1 rfl rfl,
   (missing_keys_tolerated [("explanation", Json.str "e")] "e").2.1 rfl rfl⟩

/-- C4: every failure of the correction step leaves the pipeline's final output
equal to the original transcription (the orchestrator falls back on any
`CorrectionError`), and a provider response containing no tool-invocation block
fails with the parse-category `noToolUse` error in `correct_transcription`. -/
theorem correction_failure_fallback (original body : String)
    (resp : ApiOutcome) (content : List ContentBlock) :
    (∀ e, correct_transcription resp = Except.error e →
        finalText original (correct_transcription resp) = original)
    ∧ ((∀ id nm input, ContentBlock.toolUse id nm input ∉ content) →
        correct_transcription (ApiOutcome.http true body (some content))
          = Except.error CorrectionError.noToolUse) := by
  constructor
  · intro e he
    rw [he]
    rfl
  · intro h
    have hnone : findToolUse content = none := by
      rw [findToolUse, List.findSome?_eq_none_iff]
      intro b hb
      cases b with
      | toolUse i nm inp => exact absurd hb (h i nm inp)
      | text t => rfl
    simp [correct_transcription, hnone]

/-- Witness for C4: a transport error falls back to the original text, and a
text-only response yields the `noToolUse` error. -/
theorem correction_failure_fallback_witness :
    finalText "abc" (correct_transcription ApiOutcome.transportError) = "abc"
    ∧ correct_transcription
          (ApiOutcome.http true "b" (some [ContentBlock.text "hi"]))
        = Except.error CorrectionError.noToolUse :=
  ⟨(correction_failure_fallback "abc" "b" ApiOutcome.transportError []).1
      CorrectionError.transport rfl,
   (correction_failure_fallback "abc" "b" ApiOutcome.transportError
      [ContentBlock.text "hi"]).2 (by intro i nm inp hmem; simp at hmem)⟩

/-- C5 counterexample: the claim says every transcription request carries one
`context_bias` field per configured custom word, but the orchestrator's own
request (the only transcription request the binary makes — main.rs does not
even compile backend.rs in) carries none even when a custom word is configured. -/
theorem context_bias_counterexample :
    contextBiasValues (mainTranscribeForm [0] "voxtral-mini-2507")
      ≠ (Config.mk ["foo"] "claude-haiku-4-5").custom_words := by
  decide

/-- C5 amended: the `Backend` transcribe request builder emits one
`context_bias` text field per term of `opts.context_bias`, in list order and
without deduplication; the orchestrator's own transcription request emits no
`context_bias` fields at all. -/
theorem backend_context_bias (opts : TranscribeOptions) (wav : List Nat)
    (model : String) :
    contextBiasValues (mistralForm opts) = opts.context_bias
    ∧ contextBiasValues (mainTranscribeForm wav model) = [] := by
  constructor
  · have hcons : ∀ (t : String) (rest : List FormPart),
        contextBiasValues (FormPart.text "context_bias" t :: rest)
          = t :: contextBiasValues rest := fun t rest => rfl
    have hmap : ∀ l : List String,
        contextBiasValues (l.map (fun term => FormPart.text "context_bias" term)) = l := by
      intro l
      induction l with
      | nil => rfl
      | cons t rest ih => rw [List.map_cons, hcons, ih]
    cases hl : opts.language with
    | none =>
        rw [mistralForm, hl]
        exact hmap opts.context_bias
    | some lg =>
        rw [mistralForm, hl]
        exact hmap opts.context_bias
  · rfl

/-- C6: empty strings in the tool input normalize to absent fields, non-empty
strings pass through unchanged: `corrected="" / explanation=""` yields an absent
correction and absent explanation, `corrected="foo" / explanation=""` yields a
present correction and absent explanation, and any non-empty pair is returned
as-is. -/
theorem empty_string_normalization (cs es : String) :
    correct_transcription (ApiOutcome.http true ""
        (some [ContentBlock.toolUse "toolu" "report_correction"
          (Json.obj [("corrected", Json.str ""), ("explanation", Json.str "")])]))
      = Except.ok { corrected := none, explanation := none }
    ∧ correct_transcription (ApiOutcome.http true ""
        (some [ContentBlock.toolUse "toolu" "report_correction"
          (Json.obj [("corrected", Json.str "foo"),
                     ("explanation", Json.str "")])]))
      = Except.ok { corrected := some "foo", explanation := none }
    ∧ (cs ≠ "" → es ≠ "" →
        correct_transcription (ApiOutcome.http true ""
            (some [ContentBlock.toolUse "toolu" "report_correction"
              (Json.obj [("corrected", Json.str cs),
                         ("explanation", Json.str es)])]))
          = Except.ok { corrected := some cs, explanation := some es }) := by
  refine ⟨rfl, rfl, ?_⟩
  intro hcs hes
  have hcs' : cs.isEmpty = false := by
    rw [← Bool.not_eq_true, String.isEmpty_iff]
    exact hcs
  have hes' : es.isEmpty = false := by
    rw [← Bool.not_eq_true, String.isEmpty_iff]
    exact hes
  simp [correct_transcription, findToolUse, parseCorrectionResult,
    parseDefaultField, getField, parseOptionalString, Option.filter, hcs', hes']

/-- Witness for C6 at the non-empty pair ("x", "y"). -/
theorem empty_string_normalization_witness :
    correct_transcription (ApiOutcome.http true ""
        (some [ContentBlock.toolUse "toolu" "report_correction"
          (Json.obj [("corrected", Json.str "x"), ("explanation", Json.str "y")])]))
      = Except.ok { corrected := some "x", explanation := some "y" } :=
  (empty_string_normalization "x" "y").2.2 (by decide) (by decide)

/-- C7 counterexample: the claim says the success body must contain exactly one
field and any other shape is a parse failure, but serde ignores unknown fields,
so a body with an extra field next to "text" still parses successfully. -/
theorem transcription_parse_counterexample :
    handleTranscribeResponse true "body"
        (some (Json.obj [("text", Json.str "hi"), ("extra", Json.str "e")]))
      = Except.ok "hi" :=
  rfl

/-- C7 amended: on a non-success status the operation fails with a
provider-specific error embedding the body verbatim; on success the body must be
a JSON object with a string field "text" (extra fields are ignored by the
deserializer) whose value is returned, and a body that is not JSON or lacks a
string "text" field is a parse failure. -/
theorem transcription_response_handling (body : String) (bj : Option Json)
    (fields : List (String × Json)) (t : String) :
    handleTranscribeResponse false body bj
        = Except.error (TranscribeError.apiError ("Mistral API error: " ++ body))
    ∧ (getField fields "text" = some (Json.str t) →
        handleTranscribeResponse true body (some (Json.obj fields))
          = Except.ok t)
    ∧ ((∀ u : String, getField fields "text" ≠ some (Json.str u)) →
        handleTranscribeResponse true body (some (Json.obj fields))
          = Except.error TranscribeError.decodeError)
    ∧ handleTranscribeResponse true body none
        = Except.error TranscribeError.decodeError := by
  refine ⟨rfl, ?_, ?_, rfl⟩
  · intro h
    simp [handleTranscribeResponse, parseTranscriptionResponse, h, Option.bind]
  · intro h
    have hnone : parseTranscriptionResponse (Json.obj fields) = none := by
      rw [parseTranscriptionResponse]
      cases hf : getField fields "text" with
      | none => rfl
      | some j =>
          cases j with
          | str u => exact absurd hf (h u)
          | num n => rfl
          | bool b => rfl
          | null => rfl
          | arr es => rfl
          | obj fs => rfl
    simp [handleTranscribeResponse, hnone, Option.bind]

/-- Witness for C7 at a well-formed body and at the empty object. -/
theorem transcription_response_handling_witness :
    handleTranscribeResponse true "b" (some (Json.obj [("text", Json.str "hello")]))
        = Except.ok "hello"
    ∧ handleTranscribeResponse true "b" (some (Json.obj []))
        = Except.error TranscribeError.decodeError :=
  ⟨(transcription_response_handling "b" none [("text", Json.str "hello")] "hello").2.1 rfl,
   (transcription_response_handling "b" none [] "x").2.2.1
      (by intro u h; exact Option.noConfusion h)⟩

theorem i16le_length (i : Int) : (i16le i).length = 2 :=
  rfl

theorem wavData_cons (s : ℚ) (rest : List ℚ) :
    wavData (s :: rest) = i16le (sampleToI16 s) ++ wavData rest := by
  simp [wavData]

theorem wavData_length (samples : List ℚ) :
    (wavData samples).length = 2 * samples.length := by
  induction samples with
  | nil => rfl
  | cons s rest ih =>
      rw [wavData_cons, List.length_append, i16le_length, ih, List.length_cons]
      ring

theorem wavData_get (samples : List ℚ) (i : Nat) (hi : i < samples.length) :
    ((wavData samples).drop (2 * i)).take 2
      = i16le (sampleToI16 (samples.get ⟨i, hi⟩)) := by
  induction samples generalizing i with
  | nil => simp at hi
  | cons s rest ih =>
      cases i with
      | zero =>
          rw [wavData_cons]
          simp only [Nat.mul_zero, List.drop_zero, List.get]
          exact List.take_left' (i16le_length _)
      | succ n =>
          rw [wavData_cons]
          have h2 : 2 * (n + 1) = (i16le (sampleToI16 s)).length + 2 * n := by
            rw [i16le_length]
            ring
          rw [h2, List.drop_append]
          exact ih n (by simpa using Nat.lt_of_succ_lt_succ hi)

theorem sampleToI16_bounds (s : ℚ) :
    -32768 ≤ sampleToI16 s ∧ sampleToI16 s ≤ 32767 := by
  rw [sampleToI16, ratTruncToInt]
  set c : ℚ := max (-32768) (min 32767 (s * 32767)) with hc
  have h1 : (-32768 : ℚ) ≤ c := le_max_left _ _
  have h2 : c ≤ 32767 := max_le (by norm_num) (min_le_left _ _)
  split_ifs with h
  · constructor
    · have hm : ⌈(-32768 : ℚ)⌉ ≤ ⌈c⌉ := Int.ceil_mono h1
      have he : ⌈(-32768 : ℚ)⌉ = (-32768 : ℤ) := by
        rw [show ((-32768 : ℚ)) = (((-32768 : ℤ) : ℚ)) by norm_num, Int.ceil_intCast]
      omega
    · have hm : ⌈c⌉ ≤ ⌈(0 : ℚ)⌉ := Int.ceil_mono (le_of_lt h)
      have he : ⌈(0 : ℚ)⌉ = (0 : ℤ) := Int.ceil_zero
      omega
  · constructor
    · have hm : (0 : ℤ) ≤ ⌊c⌋ := Int.floor_nonneg.mpr (not_lt.mp h)
      omega
    · have hm : ⌊c⌋ ≤ ⌊(32767 : ℚ)⌋ := Int.floor_mono h2
      have he : ⌊(32767 : ℚ)⌋ = (32767 : ℤ) := by
        rw [show ((32767 : ℚ)) = (((32767 : ℤ) : ℚ)) by norm_num, Int.floor_intCast]
      omega

/-- C1: the WAV encoding of a non-empty captured sample sequence converts each
sample by scaling with 32767, clamping into [-32768, 32767] and truncating
(`sampleToI16`, exactly the source's `(s * 32767.0).clamp(-32768.0, 32767.0) as
i16`), writes the samples as little-endian signed 16-bit integers in input
order (the bytes at offset 2*i of the data chunk encode sample i), the data
chunk byte length is twice the sample count, and the header's declared data
chunk size field (bytes 40..43) carries that length. -/
theorem wav_encoding_sound (channels sampleRate : Nat) (samples : List ℚ)
    (hne : samples ≠ []) :
    (encodeWav channels sampleRate samples).drop 44 = wavData samples
    ∧ (wavData samples).length = 2 * samples.length
    ∧ (∀ i (hi : i < samples.length),
        ((wavData samples).drop (2 * i)).take 2
          = i16le (sampleToI16 (samples.get ⟨i, hi⟩)))
    ∧ (∀ s : ℚ, -32768 ≤ sampleToI16 s ∧ sampleToI16 s ≤ 32767)
    ∧ ((encodeWav channels sampleRate samples).drop 40).take 4
        = u32le (2 * samples.length) := by
  refine ⟨rfl, wavData_length samples, wavData_get samples, sampleToI16_bounds, rfl⟩

/-- Witness for C1 at the one-sample recording [1/2]. -/
theorem wav_encoding_sound_witness :
    ([(1 / 2 : ℚ)] ≠ [] ∧ (wavData [(1 / 2 : ℚ)]).length = 2 * 1)
    ∧ ((wavData [(1 / 2 : ℚ)]).drop (2 * 0)).take 2
        = i16le (sampleToI16 ((List.get [(1 / 2 : ℚ)]) ⟨0, by decide⟩)) :=
  ⟨⟨by decide, by simpa using (wav_encoding_sound 1 8000 [(1 / 2 : ℚ)] (by decide)).2.1⟩,
   (wav_encoding_sound 1 8000 [(1 / 2 : ℚ)] (by decide)).2.2.1 0 (by decide)⟩

end RecCli
